import Mathlib

/-!
Shallow embedding of the STA buffer-insertion visualizer (src/main.py).

The program keeps one piece of mutable state: the list
`update_timing_graph.buffers` of `(type, delay)` pairs, mutated by the
button events, plus the setup checkbox value that Dash passes into every
callback invocation.  Each callback invocation recomputes the per-stage
delay table (`rows`), arrival/required/slack times, the two clock
waveforms and the textual summary.  Real numbers of the Python source are
modelled as rationals (`ℚ`); Python `round(x, 2)` is modelled by `round2`
and `%` on non-negative-modulus floats by `pymod`.
-/

namespace STA

/-- Constant `clk_period = 5.0` (src/main.py line 8). -/
def clk_period : ℚ := 5

/-- Constant `buffer_delay = 0.5` (line 9). -/
def buffer_delay : ℚ := 1 / 2

/-- Constant `lvt_factor = 0.7` (line 10). -/
def lvt_factor : ℚ := 7 / 10

/-- Constant `hvt_factor = 1.3` (line 11). -/
def hvt_factor : ℚ := 13 / 10

/-- Constant `flop_to_flop_base_delay = 0.0` (line 12). -/
def flop_to_flop_base_delay : ℚ := 0

/-- Constant `setup_time_penalty = 0.2` (line 13). -/
def setup_time_penalty : ℚ := 1 / 5

/-- Constant `launch_clock_delay = 0.0` (line 14). -/
def launch_clock_delay : ℚ := 0

/-- The three buffer variants offered by the three add buttons. -/
inductive Variant where
| normal
| lvt
| hvt
deriving DecidableEq

/-- The string stored as the first tuple component on append
(lines 68, 70, 72): `"buffer"`, `"LVT"`, `"HVT"`. -/
def Variant.label : Variant → String
| .normal => "buffer"
| .lvt => "LVT"
| .hvt => "HVT"

/-- The delay stored as the second tuple component on append
(lines 68, 70, 72): `buffer_delay`, `buffer_delay * lvt_factor`,
`buffer_delay * hvt_factor`. -/
def Variant.delay : Variant → ℚ
| .normal => buffer_delay
| .lvt => buffer_delay * lvt_factor
| .hvt => buffer_delay * hvt_factor

/-- The tuple appended to `update_timing_graph.buffers` by an add event. -/
def mkIns (v : Variant) : String × ℚ := (v.label, v.delay)

/-- The program's mutable state: the `buffers` function attribute plus the
current value of the `setup-check` checklist (true iff `"setup"` is in the
checklist value). -/
structure TimingState where
  buffers : List (String × ℚ)
  setupCheck : Bool
deriving DecidableEq

/-- State at process start: no `buffers` attribute yet (initialized to `[]`
on first call, line 64-65) and the checklist unchecked. -/
def initState : TimingState := { buffers := [], setupCheck := false }

/-- The discrete user events dispatched on `triggered_id` (lines 62-74)
plus the checklist toggle. -/
inductive Event where
| add (v : Variant)
| removeBuffer
| reset
| setupCheckSet (b : Bool)
deriving DecidableEq

/-- One callback invocation's state mutation (lines 64-74): add events
append to the chain, `remove-buffer` pops the last element when the chain
is non-empty (`List.dropLast` is exactly that, and is the identity on
`[]`), `reset` clears the chain (and only the chain — the checklist value
is an independent input that the reset button does not touch), and a
checklist toggle replaces the setup flag. -/
def step (e : Event) (s : TimingState) : TimingState :=
  match e with
  | .add v => { s with buffers := s.buffers ++ [mkIns v] }
  | .removeBuffer => { s with buffers := s.buffers.dropLast }
  | .reset => { s with buffers := [] }
  | .setupCheckSet b => { s with setupCheck := b }

/-- Folding a sequence of user events over a state. -/
def applyEvents (es : List Event) (s : TimingState) : TimingState :=
  es.foldl (fun t e => step e t) s

/-- Python `round(q, 2)` (lines 87, 88, 93), on exact rationals. -/
def round2 (q : ℚ) : ℚ := ((round (q * 100) : ℤ) : ℚ) / 100

/-- One row of the timing path report (the dict literals of lines 80,
85-90, 92-93). -/
structure Row where
  inst : String
  incr : ℚ
  total : ℚ
  style : String
deriving DecidableEq

/-- The `style` entry of a buffer row (line 84). -/
def styleOf (typ : String) : String :=
  if typ = "LVT" then "color: red;" else if typ = "HVT" then "color: green;" else ""

/-- The loop of lines 82-90: walking the chain with a 0-based index and a
running cumulative delay, producing the buffer rows and the final
cumulative delay. -/
def rowsAux : List (String × ℚ) → Nat → ℚ → List Row × ℚ
| [], _, cum => ([], cum)
| (typ, d) :: rest, i, cum =>
  let p := rowsAux rest (i + 1) (cum + d)
  ({ inst := typ ++ " buffer" ++ toString (i + 1), incr := round2 d,
     total := round2 (cum + d), style := styleOf typ } :: p.1, p.2)

/-- The computed breakdown of one callback invocation: the report rows and
the three derived times (lines 78-98). -/
structure TimingBreakdown where
  rows : List Row
  arrivalTime : ℚ
  requiredTime : ℚ
  slack : ℚ
deriving DecidableEq

/-- The fixed first report row (line 80). -/
def startRow : Row := { inst := "startflop", incr := 0, total := 0, style := "" }

/-- Lines 78-98: build the rows, add `flop_to_flop_base_delay`, append the
`endflop` row, and derive arrival time, required time and slack. -/
def compute (s : TimingState) : TimingBreakdown :=
  let p := rowsAux s.buffers 0 0
  let cum := p.2 + flop_to_flop_base_delay
  let endRow : Row := { inst := "endflop", incr := 0, total := round2 cum, style := "" }
  let penalty := if s.setupCheck then setup_time_penalty else 0
  let required := clk_period - penalty
  { rows := startRow :: (p.1 ++ [endRow]), arrivalTime := cum,
    requiredTime := required, slack := required - cum }

/-- Grid `time_range = [i * 0.1 for i in range(101)]` (line 100). -/
def time_range : List ℚ := (List.range 101).map (fun (i : ℕ) => (i : ℚ) * (1 / 10))

/-- Python `a % n` for rationals with positive modulus: the non-negative
remainder `a - n * floor (a / n)`. -/
def pymod (a n : ℚ) : ℚ := a - n * ((⌊a / n⌋ : ℤ) : ℚ)

/-- List `launch_clock` (line 101).  The list is computed inside the
state-handling callback — hence the (unused) state argument — but reads
nothing from the state. -/
def launch_clock (_s : TimingState) : List ℚ :=
  time_range.map (fun t =>
    if pymod (t - launch_clock_delay) clk_period < clk_period / 2 then 1 else 0)

/-- List `capture_clock` (line 102), likewise state-independent. -/
def capture_clock (_s : TimingState) : List ℚ :=
  time_range.map (fun t => if pymod t clk_period < clk_period / 2 then 1 else 0)

/-- Rendering of a non-negative number of tenths as a 1-decimal string. -/
def fmtTenths (n : ℤ) : String := toString (n / 10) ++ "." ++ toString (n % 10)

/-- Python `f"{q:.1f}"`: round to the nearest tenth and print with one
decimal digit (sign handled separately so `-1.2` prints as `"-1.2"`). -/
def fmt1 (q : ℚ) : String :=
  let n := round (q * 10)
  if n < 0 then "-" ++ fmtTenths (-n) else fmtTenths n

/-- The `timing-summary` text (lines 166-171). -/
def summary (s : TimingState) : String :=
  let b := compute s
  "Startpoint : startflop\n" ++ "Endpoint   : endflop\n" ++
  "Pathtype   : setup check\n\n" ++
  "Slack = data required time - data arrival time = " ++
  fmt1 b.requiredTime ++ " - " ++ fmt1 b.arrivalTime ++ " = " ++ fmt1 b.slack ++
  " (" ++ (if b.slack ≥ 0 then "MET" else "VIOLATED") ++ ")"

/-- Full-precision cumulative sums `[c+d1, c+d1+d2, ...]` — the spec-side
(unrounded) stage totals, used to compare the stored rows against. -/
def partials (cum : ℚ) : List ℚ → List ℚ
| [] => []
| d :: ds => (cum + d) :: partials (cum + d) ds

/-- Predicate for "is an integer multiple of 1/20": every catalog delay is, and the set
is closed under addition, which makes `round2` the identity on every value
the program ever stores. -/
def Mul20 (q : ℚ) : Prop := ∃ n : ℤ, q = n / 20

/-- The final accumulator of the report loop is the initial accumulator
plus the sum of all chain delays. -/
theorem rowsAux_snd (bs : List (String × ℚ)) : ∀ (i : Nat) (cum : ℚ),
    (rowsAux bs i cum).2 = cum + (bs.map (fun p => p.2)).sum := by
  induction bs with
  | nil => intro i cum; simp [rowsAux]
  | cons hd tl ih =>
    intro i cum
    obtain ⟨typ, d⟩ := hd
    simp [rowsAux, ih]
    ring

/-- The stored `Total Delay` column of the buffer rows is the list of
rounded cumulative sums. -/
theorem rowsAux_map_total (bs : List (String × ℚ)) : ∀ (i : Nat) (cum : ℚ),
    (rowsAux bs i cum).1.map (fun r => r.total) =
      (partials cum (bs.map (fun p => p.2))).map round2 := by
  induction bs with
  | nil => intro i cum; simp [rowsAux, partials]
  | cons hd tl ih =>
    intro i cum
    obtain ⟨typ, d⟩ := hd
    simp [rowsAux, partials, ih]

/-- The stored `Incremental Delay` column of the buffer rows is the list
of rounded chain delays. -/
theorem rowsAux_map_incr (bs : List (String × ℚ)) : ∀ (i : Nat) (cum : ℚ),
    (rowsAux bs i cum).1.map (fun r => r.incr) =
      (bs.map (fun p => p.2)).map round2 := by
  induction bs with
  | nil => intro i cum; simp [rowsAux]
  | cons hd tl ih =>
    intro i cum
    obtain ⟨typ, d⟩ := hd
    simp [rowsAux, ih]

theorem mul20_zero : Mul20 0 := ⟨0, by norm_num⟩

theorem mul20_add {a b : ℚ} (ha : Mul20 a) (hb : Mul20 b) : Mul20 (a + b) := by
  obtain ⟨m, rfl⟩ := ha
  obtain ⟨n, rfl⟩ := hb
  exact ⟨m + n, by push_cast; ring⟩

theorem mul20_sum {ds : List ℚ} (h : ∀ d ∈ ds, Mul20 d) : Mul20 ds.sum := by
  induction ds with
  | nil => simpa using mul20_zero
  | cons d ds ih =>
    rw [List.sum_cons]
    exact mul20_add (h d (List.mem_cons_self d ds)) (ih fun e he => h e (List.mem_cons_of_mem d he))

theorem mul20_delay (v : Variant) : Mul20 v.delay := by
  cases v with
  | normal => exact ⟨10, by norm_num [Variant.delay, buffer_delay]⟩
  | lvt => exact ⟨7, by norm_num [Variant.delay, buffer_delay, lvt_factor]⟩
  | hvt => exact ⟨13, by norm_num [Variant.delay, buffer_delay, hvt_factor]⟩

theorem mul20_base : Mul20 flop_to_flop_base_delay := ⟨0, by norm_num [flop_to_flop_base_delay]⟩

theorem delay_nonneg (v : Variant) : 0 ≤ v.delay := by
  cases v <;> norm_num [Variant.delay, buffer_delay, lvt_factor, hvt_factor]

/-- Lemma: `round2` is the identity on integer multiples of `1/20`, hence on
every delay value this program ever computes. -/
theorem round2_eq_self {q : ℚ} (h : Mul20 q) : round2 q = q := by
  obtain ⟨n, rfl⟩ := h
  have h1 : ((n : ℚ) / 20) * 100 = ((n * 5 : ℤ) : ℚ) := by push_cast; ring
  rw [round2, h1, round_intCast]
  push_cast
  ring

theorem mul20_partials {ds : List ℚ} : ∀ {cum : ℚ}, Mul20 cum → (∀ d ∈ ds, Mul20 d) →
    ∀ x ∈ partials cum ds, Mul20 x := by
  induction ds with
  | nil => intro cum _ _ x hx; simp [partials] at hx
  | cons d ds ih =>
    intro cum hcum hd x hx
    rw [partials, List.mem_cons] at hx
    have hcd : Mul20 (cum + d) := mul20_add hcum (hd d (List.mem_cons_self d ds))
    rcases hx with h | h
    · rw [h]; exact hcd
    · exact ih hcd (fun e he => hd e (List.mem_cons_of_mem d he)) x h

theorem map_round2_eq_self {l : List ℚ} (h : ∀ x ∈ l, Mul20 x) : l.map round2 = l := by
  induction l with
  | nil => rfl
  | cons a l ih =>
    rw [List.map_cons, round2_eq_self (h a (List.mem_cons_self a l)),
      ih fun x hx => h x (List.mem_cons_of_mem a hx)]

/-- Non-negative increments keep the cumulative-sum list monotone, and
any bound at least the final sum can be appended at the end. -/
theorem chain_le_partials (ds : List ℚ) : ∀ (cum c : ℚ), (∀ d ∈ ds, 0 ≤ d) →
    cum + ds.sum ≤ c →
    List.Chain' (fun a e => a ≤ e) (cum :: (partials cum ds ++ [c])) := by
  induction ds with
  | nil =>
    intro cum c _ hc
    rw [List.sum_nil, add_zero] at hc
    exact List.chain'_cons.mpr ⟨hc, List.chain'_singleton c⟩
  | cons d ds ih =>
    intro cum c hd hc
    rw [List.sum_cons] at hc
    rw [partials, List.cons_append]
    refine List.chain'_cons.mpr ⟨le_add_of_nonneg_right (hd d (List.mem_cons_self d ds)), ?_⟩
    refine ih (cum + d) c (fun e he => hd e (List.mem_cons_of_mem d he)) ?_
    linarith

/-- The second components of the appended tuples are exactly the catalog
delays of the chosen variants. -/
theorem map_snd_mkIns (vs : List Variant) :
    (vs.map mkIns).map (fun p => p.2) = vs.map Variant.delay := by
  rw [List.map_map]
  rfl

/-- Arrival time is the (unrounded) sum of all chain delays plus
`flop_to_flop_base_delay`, for any state. -/
theorem compute_arrivalTime (s : TimingState) :
    (compute s).arrivalTime = (s.buffers.map (fun p => p.2)).sum + flop_to_flop_base_delay := by
  show (rowsAux s.buffers 0 0).2 + flop_to_flop_base_delay = _
  rw [rowsAux_snd, zero_add]

/-- Required time subtracts the setup penalty exactly when the setup
check is enabled. -/
theorem compute_requiredTime (s : TimingState) :
    (compute s).requiredTime = clk_period - (if s.setupCheck then setup_time_penalty else 0) := rfl

/-- Slack is required time minus arrival time, for any state. -/
theorem compute_slack (s : TimingState) :
    (compute s).slack = (compute s).requiredTime - (compute s).arrivalTime := rfl

/-- Every value appearing in the cumulative-sum lists of a catalog chain
is a multiple of `1/20`. -/
theorem mul20_partials_of_variants (vs : List Variant) :
    ∀ x ∈ partials 0 (vs.map Variant.delay), Mul20 x := by
  refine mul20_partials mul20_zero ?_
  intro d hd
  obtain ⟨v, _, rfl⟩ := List.mem_map.mp hd
  exact mul20_delay v

/-- The stored `Total Delay` column of a catalog chain's report, end to
end: `0` for the start flop, the full-precision cumulative sums for the
buffers, and the full-precision total for the end flop — the `round2`
calls of the source are the identity on all of these. -/
theorem compute_map_total (vs : List Variant) (b : Bool) :
    ((compute { buffers := vs.map mkIns, setupCheck := b }).rows).map (fun r => r.total) =
      0 :: (partials 0 (vs.map Variant.delay) ++
        [(vs.map Variant.delay).sum + flop_to_flop_base_delay]) := by
  show (startRow :: ((rowsAux (vs.map mkIns) 0 0).1 ++
    [{ inst := "endflop", incr := 0,
       total := round2 ((rowsAux (vs.map mkIns) 0 0).2 + flop_to_flop_base_delay),
       style := "" }])).map (fun r => r.total) = _
  rw [List.map_cons, List.map_append, rowsAux_map_total, map_snd_mkIns,
    map_round2_eq_self (mul20_partials_of_variants vs), rowsAux_snd, map_snd_mkIns, zero_add]
  rw [round2_eq_self (mul20_add (mul20_sum ?_) mul20_base)]
  · rfl
  · intro d hd
    obtain ⟨v, _, rfl⟩ := List.mem_map.mp hd
    exact mul20_delay v

/-- Claim C1: for every timing state the breakdown satisfies
`arrivalTime` = sum of all chain delays plus `flop_to_flop_base_delay`,
`requiredTime` = `clk_period` minus the setup penalty exactly when the
setup flag is enabled, and `slack` = `requiredTime - arrivalTime`; and for
the chain [LowThreshold, HighThreshold] with the setup check enabled the
breakdown is `arrivalTime = 1`, `requiredTime = 24/5 = 4.8`,
`slack = 19/5 = 3.8`. -/
theorem claim1_breakdown_formula :
    (∀ s : TimingState,
      (compute s).arrivalTime = (s.buffers.map (fun p => p.2)).sum + flop_to_flop_base_delay ∧
      (compute s).requiredTime = clk_period - (if s.setupCheck then setup_time_penalty else 0) ∧
      (compute s).slack = (compute s).requiredTime - (compute s).arrivalTime) ∧
    (compute (applyEvents [Event.add Variant.lvt, Event.add Variant.hvt,
        Event.setupCheckSet true] initState)).arrivalTime = 1 ∧
    (compute (applyEvents [Event.add Variant.lvt, Event.add Variant.hvt,
        Event.setupCheckSet true] initState)).requiredTime = 24 / 5 ∧
    (compute (applyEvents [Event.add Variant.lvt, Event.add Variant.hvt,
        Event.setupCheckSet true] initState)).slack = 19 / 5 := by
  refine ⟨fun s => ⟨compute_arrivalTime s, compute_requiredTime s, compute_slack s⟩, ?_, ?_, ?_⟩ <;>
    norm_num [compute, initState, applyEvents, step, mkIns, rowsAux, Variant.delay,
      Variant.label, buffer_delay, lvt_factor, hvt_factor, flop_to_flop_base_delay,
      clk_period, setup_time_penalty, List.foldl]

/-- Claim C2 counterexample: toggling the setup check on and then
pressing reset does NOT restore the initial state — the chain is cleared
but the setup flag stays on, so the post-reset breakdown has
`requiredTime = 4.8`, not the fresh state's `5.0`. -/
theorem claim2_reset_counterexample :
    (applyEvents [Event.setupCheckSet true, Event.reset] initState).setupCheck = true ∧
    applyEvents [Event.setupCheckSet true, Event.reset] initState ≠ initState ∧
    (compute (applyEvents [Event.setupCheckSet true, Event.reset] initState)).requiredTime = 24 / 5 ∧
    (compute initState).requiredTime = 5 ∧
    compute (applyEvents [Event.setupCheckSet true, Event.reset] initState) ≠ compute initState := by
  have hs : applyEvents [Event.setupCheckSet true, Event.reset] initState =
      { buffers := [], setupCheck := true } := rfl
  have h1 : (compute { buffers := ([] : List (String × ℚ)), setupCheck := true }).requiredTime =
      24 / 5 := by
    norm_num [compute, rowsAux, clk_period, setup_time_penalty]
  have h2 : (compute initState).requiredTime = 5 := by
    norm_num [compute, initState, rowsAux, clk_period]
  refine ⟨by rw [hs], by rw [hs]; simp [initState], by rw [hs]; exact h1, h2, ?_⟩
  rw [hs]
  intro h
  have h3 := congrArg TimingBreakdown.requiredTime h
  rw [h1, h2] at h3
  norm_num at h3

/-- Claim C2 as amended: the reset event clears the chain but leaves the setup
flag at its current (checklist-held) value; the post-reset breakdown
equals that of a fresh state carrying the same flag, and it equals the
freshly-created state's breakdown whenever the flag is off at reset
time. -/
theorem claim2_reset_clears_chain (es : List Event) (bs : List (String × ℚ)) :
    (step Event.reset (applyEvents es initState)).buffers = [] ∧
    (step Event.reset (applyEvents es initState)).setupCheck =
      (applyEvents es initState).setupCheck ∧
    compute (step Event.reset (applyEvents es initState)) =
      compute { buffers := [], setupCheck := (applyEvents es initState).setupCheck } ∧
    step Event.reset { buffers := bs, setupCheck := false } = initState ∧
    compute (step Event.reset { buffers := bs, setupCheck := false }) = compute initState :=
  ⟨rfl, rfl, rfl, rfl, rfl⟩

/-- Claim C3 (refuting theorem, code bug): the source applies
`round(·, 2)` when STORING the stage rows, not only when formatting —
for every chain, the stored incremental column is the `round2`-image of
the per-stage delays and the stored cumulative column (end flop
included) is the `round2`-image of the full-precision partial sums,
while `arrivalTime` keeps the unrounded total.  The storage path
genuinely rounds: at a chain whose delay is not a multiple of `1/100`
(as the program's float-accumulated cumulative values are not), the
stored end-flop total (`33/100` for delay `1/3`) differs from the
unrounded sum (`1/3` = `arrivalTime`), contradicting "rounding …
never in the stored stage data". -/
theorem claim3_round_before_store (bs : List (String × ℚ)) (b : Bool) :
    ((compute { buffers := bs, setupCheck := b }).rows).map (fun r => r.incr) =
      0 :: ((bs.map (fun p => p.2)).map round2 ++ [0]) ∧
    ((compute { buffers := bs, setupCheck := b }).rows).map (fun r => r.total) =
      0 :: ((partials 0 (bs.map (fun p => p.2))).map round2 ++
        [round2 ((bs.map (fun p => p.2)).sum + flop_to_flop_base_delay)]) ∧
    (compute { buffers := bs, setupCheck := b }).arrivalTime =
      (bs.map (fun p => p.2)).sum + flop_to_flop_base_delay ∧
    ((compute { buffers := [("buffer", 1 / 3)], setupCheck := false }).rows).getLast? =
      some { inst := "endflop", incr := 0, total := 33 / 100, style := "" } ∧
    (compute { buffers := [("buffer", 1 / 3)], setupCheck := false }).arrivalTime = 1 / 3 ∧
    (33 / 100 : ℚ) ≠ 1 / 3 := by
  refine ⟨?_, ?_, compute_arrivalTime _, ?_, ?_, by norm_num⟩
  · show (startRow :: ((rowsAux bs 0 0).1 ++
      [{ inst := "endflop", incr := 0,
         total := round2 ((rowsAux bs 0 0).2 + flop_to_flop_base_delay),
         style := "" }])).map (fun r => r.incr) = _
    rw [List.map_cons, List.map_append, rowsAux_map_incr]
    rfl
  · show (startRow :: ((rowsAux bs 0 0).1 ++
      [{ inst := "endflop", incr := 0,
         total := round2 ((rowsAux bs 0 0).2 + flop_to_flop_base_delay),
         style := "" }])).map (fun r => r.total) = _
    rw [List.map_cons, List.map_append, rowsAux_map_total, rowsAux_snd, zero_add]
    rfl
  · show (startRow :: ((rowsAux [("buffer", 1 / 3)] 0 0).1 ++
      [{ inst := "endflop", incr := 0,
         total := round2 ((rowsAux [("buffer", 1 / 3)] 0 0).2 + flop_to_flop_base_delay),
         style := "" }])).getLast? = _
    rw [← List.cons_append, List.getLast?_concat]
    norm_num [rowsAux, round2, round_eq, flop_to_flop_base_delay]
  · rw [compute_arrivalTime]
    norm_num [flop_to_flop_base_delay]

/-- Claim C4: the function `step` is a total function on states, and the remove event
drops exactly the most recently appended chain element — on an empty
chain it is a no-op that returns the state unchanged. -/
theorem claim4_removeLast_total (s : TimingState) (l : List (String × ℚ))
    (x : String × ℚ) (b : Bool) :
    step Event.removeBuffer s = { buffers := s.buffers.dropLast, setupCheck := s.setupCheck } ∧
    step Event.removeBuffer { buffers := l ++ [x], setupCheck := b } =
      { buffers := l, setupCheck := b } ∧
    step Event.removeBuffer { buffers := [], setupCheck := b } =
      { buffers := [], setupCheck := b } := by
  refine ⟨rfl, ?_, rfl⟩
  simp [step, List.dropLast_concat]

/-- Claim C5: adding any buffer variant and then removing the last buffer
is a round trip — it restores the prior state exactly, and hence the
prior breakdown exactly. -/
theorem claim5_add_remove_roundtrip (s : TimingState) (v : Variant) :
    step Event.removeBuffer (step (Event.add v) s) = s ∧
    compute (step Event.removeBuffer (step (Event.add v) s)) = compute s := by
  have h : step Event.removeBuffer (step (Event.add v) s) = s := by
    cases s with
    | mk bs b => simp [step, List.dropLast_concat]
  exact ⟨h, by rw [h]⟩

/-- Indexing the fixed time grid: point `i` is `i * 0.1`, for `i < 101`. -/
theorem time_range_getElem (i : ℕ) :
    time_range[i]? = if i < 101 then some ((i : ℚ) * (1 / 10)) else none := by
  show ((List.range 101).map fun (j : ℕ) => (j : ℚ) * (1 / 10))[i]? = _
  rw [List.getElem?_map]
  by_cases h : i < 101
  · rw [List.getElem?_range h, if_pos h]
    rfl
  · rw [List.getElem?_eq_none (by simpa using not_lt.mp h), if_neg h]
    rfl

/-- Indexing the capture-clock samples. -/
theorem capture_clock_getElem (s : TimingState) (i : ℕ) :
    (capture_clock s)[i]? = if i < 101 then
      some (if pymod ((i : ℚ) * (1 / 10)) clk_period < clk_period / 2 then 1 else 0)
    else none := by
  show (time_range.map _)[i]? = _
  rw [List.getElem?_map, time_range_getElem]
  by_cases h : i < 101 <;> simp [h]

/-- Indexing the launch-clock samples. -/
theorem launch_clock_getElem (s : TimingState) (i : ℕ) :
    (launch_clock s)[i]? = if i < 101 then
      some (if pymod ((i : ℚ) * (1 / 10) - launch_clock_delay) clk_period < clk_period / 2
        then 1 else 0)
    else none := by
  show (time_range.map _)[i]? = _
  rw [List.getElem?_map, time_range_getElem]
  by_cases h : i < 101 <;> simp [h]

/-- Claim C6: the waveform generator samples the fixed grid
`[0, 0.1, …, 10.0]`, the capture level at `t` is `1` iff
`t mod clk_period < clk_period / 2` (with non-negative remainder), the
launch level is the same with `t` shifted by `launch_clock_delay`, the
samples never depend on the timing state, and at `t = 0` both levels
are `1`. -/
theorem claim6_waveform (s t : TimingState) :
    launch_clock s = launch_clock t ∧
    capture_clock s = capture_clock t ∧
    time_range.length = 101 ∧
    (∀ i : ℕ, time_range[i]? = if i < 101 then some ((i : ℚ) * (1 / 10)) else none) ∧
    (∀ i : ℕ, (capture_clock s)[i]? = if i < 101 then
      some (if pymod ((i : ℚ) * (1 / 10)) clk_period < clk_period / 2 then 1 else 0)
      else none) ∧
    (∀ i : ℕ, (launch_clock s)[i]? = if i < 101 then
      some (if pymod ((i : ℚ) * (1 / 10) - launch_clock_delay) clk_period < clk_period / 2
        then 1 else 0)
      else none) ∧
    (capture_clock s).head? = some 1 ∧
    (launch_clock s).head? = some 1 := by
  refine ⟨rfl, rfl,
    by simp only [time_range, List.length_map, List.length_range],
    time_range_getElem,
    capture_clock_getElem s, launch_clock_getElem s, ?_, ?_⟩
  · rw [List.head?_eq_getElem?, capture_clock_getElem]
    norm_num [pymod, clk_period]
  · rw [List.head?_eq_getElem?, launch_clock_getElem]
    norm_num [pymod, clk_period, launch_clock_delay]

/-- Claim C7: the summary text reproduces the fixed startpoint, endpoint
and path-type labels and a slack equation line at 1-decimal precision,
and its verdict is `MET` exactly when `slack ≥ 0` and `VIOLATED` exactly
when `slack < 0`. -/
theorem claim7_summary_verdict (s : TimingState) :
    summary s = "Startpoint : startflop\n" ++ "Endpoint   : endflop\n" ++
      "Pathtype   : setup check\n\n" ++
      "Slack = data required time - data arrival time = " ++
      fmt1 (compute s).requiredTime ++ " - " ++ fmt1 (compute s).arrivalTime ++ " = " ++
      fmt1 (compute s).slack ++
      " (" ++ (if (compute s).slack ≥ 0 then "MET" else "VIOLATED") ++ ")" ∧
    ((if (compute s).slack ≥ 0 then "MET" else "VIOLATED") = "MET" ↔ 0 ≤ (compute s).slack) ∧
    ((if (compute s).slack ≥ 0 then "MET" else "VIOLATED") = "VIOLATED" ↔
      (compute s).slack < 0) := by
  have hMV : ("MET" : String) ≠ "VIOLATED" := by decide
  have hVM : ("VIOLATED" : String) ≠ "MET" := by decide
  refine ⟨rfl, ?_, ?_⟩
  · by_cases h : (compute s).slack ≥ 0
    · rw [if_pos h]; exact iff_of_true rfl h
    · rw [if_neg h]; exact iff_of_false hVM h
  · by_cases h : (compute s).slack ≥ 0
    · rw [if_pos h]; exact iff_of_false hMV (not_lt.mpr h)
    · rw [if_neg h]; exact iff_of_true rfl (not_le.mp h)

/-- Claim C7 instance at the fresh state. -/
theorem claim7_summary_verdict_witness :
    (if (compute initState).slack ≥ 0 then "MET" else "VIOLATED") = "MET" ↔
      0 ≤ (compute initState).slack :=
  (claim7_summary_verdict initState).2.1

/-- Claim C8: the Delay Catalog gives the Normal variant `buffer_delay`,
the LowThreshold variant `buffer_delay * lvt_factor` (strictly smaller),
the HighThreshold variant `buffer_delay * hvt_factor` (strictly larger);
an add event stores the catalog delay of its variant at insertion time,
and every event leaves the already-stored chain elements untouched —
the new chain is a prefix of the old one or the old one with a single
freshly-built element appended. -/
theorem claim8_delay_catalog :
    Variant.delay Variant.normal = buffer_delay ∧
    (Variant.delay Variant.lvt = buffer_delay * lvt_factor ∧
      Variant.delay Variant.lvt < buffer_delay) ∧
    (Variant.delay Variant.hvt = buffer_delay * hvt_factor ∧
      buffer_delay < Variant.delay Variant.hvt) ∧
    (∀ (v : Variant) (s : TimingState),
      step (Event.add v) s = { s with buffers := s.buffers ++ [(v.label, v.delay)] }) ∧
    (∀ (e : Event) (s : TimingState),
      (step e s).buffers <+: s.buffers ∨
        ∃ v : Variant, e = Event.add v ∧ (step e s).buffers = s.buffers ++ [mkIns v]) := by
  refine ⟨rfl, ⟨rfl, by norm_num [Variant.delay, buffer_delay, lvt_factor]⟩,
    ⟨rfl, by norm_num [Variant.delay, buffer_delay, hvt_factor]⟩, fun v s => rfl, ?_⟩
  intro e s
  cases e with
  | add v => exact Or.inr ⟨v, rfl, rfl⟩
  | removeBuffer => exact Or.inl ( List.dropLast_prefix _)
  | reset => exact Or.inl List.nil_prefix
  | setupCheckSet b => exact Or.inl ( List.prefix_refl _)

/-- Claim C9: for every chain built from the three variants, the stored
cumulative delays of the report rows are weakly monotonically
non-decreasing from the start flop through every buffer to the end
flop. -/
theorem claim9_monotone_cumulative (vs : List Variant) (b : Bool) :
    List.Chain' (fun r e => r.total ≤ e.total)
      (compute { buffers := vs.map mkIns, setupCheck := b }).rows := by
  have hnn : ∀ d ∈ vs.map Variant.delay, 0 ≤ d := by
    intro d hd
    obtain ⟨v, _, rfl⟩ := List.mem_map.mp hd
    exact delay_nonneg v
  have hc := chain_le_partials (vs.map Variant.delay) 0
    ((vs.map Variant.delay).sum + flop_to_flop_base_delay) hnn
    (by rw [zero_add]; norm_num [flop_to_flop_base_delay])
  rw [← compute_map_total vs b] at hc
  exact (List.chain'_map (fun r : Row => r.total)).mp hc

/-- Claim C10: toggling the setup flag changes neither the report rows
nor the arrival time — only the required time (full period vs period
minus penalty) and hence the slack differ — and chain events (add,
remove, reset) never change the setup flag. -/
theorem claim10_setup_toggle_frame (bs : List (String × ℚ)) (b c : Bool)
    (v : Variant) (s : TimingState) :
    (compute { buffers := bs, setupCheck := b }).rows =
      (compute { buffers := bs, setupCheck := c }).rows ∧
    (compute { buffers := bs, setupCheck := b }).arrivalTime =
      (compute { buffers := bs, setupCheck := c }).arrivalTime ∧
    (compute { buffers := bs, setupCheck := true }).requiredTime =
      clk_period - setup_time_penalty ∧
    (compute { buffers := bs, setupCheck := false }).requiredTime = clk_period ∧
    (compute { buffers := bs, setupCheck := b }).slack =
      (compute { buffers := bs, setupCheck := b }).requiredTime -
        (compute { buffers := bs, setupCheck := b }).arrivalTime ∧
    (step (Event.add v) s).setupCheck = s.setupCheck ∧
    (step Event.removeBuffer s).setupCheck = s.setupCheck ∧
    (step Event.reset s).setupCheck = s.setupCheck := by
  refine ⟨rfl, rfl, ?_, ?_, rfl, rfl, rfl, rfl⟩
  · simp [compute_requiredTime]
  · simp [compute_requiredTime]

end STA
